import Mathlib

/-!
Verification of the CashRaaga bank-statement pipeline (`src/app.py`).

The file shallowly embeds the normalization / classification / monthly
aggregation / forecast core of the application:

* raw rows are modelled by the outcome of the pandas coercions applied to
  them (`pd.to_numeric(..., errors="coerce")` and
  `pd.to_datetime(..., errors="coerce")` are external parsers, so a raw
  cell is represented by its parse result, `Option ℚ` / `Option Date`);
* amounts are rationals (the source works with pandas floats; the claims
  under verification are exact algebraic identities, stated here over ℚ);
* the `pmdarima.auto_arima` model search plus `model.predict` is an
  external library call that may raise; it is modelled by an abstract
  `ForecastModel` whose `run` either returns the requested number of
  predictions or fails with a message (a raised exception).
-/

namespace CashRaaga

/-- Python's `str.lower()`, written over the character list of the string
(so that it evaluates by kernel reduction). -/
def strLower (s : String) : String := String.mk (s.data.map Char.toLower)

/-- Python's `str.upper()`, written over the character list of the string. -/
def strUpper (s : String) : String := String.mk (s.data.map Char.toUpper)

/-- ASCII whitespace, the characters `str.strip()` removes from bank
statement cells. -/
def isWs (c : Char) : Bool := c == ' ' || c == '\t' || c == '\n' || c == '\r'

/-- Python's `str.strip()`: drop whitespace from both ends. -/
def strTrim (s : String) : String :=
  String.mk (((s.data.dropWhile isWs).reverse.dropWhile isWs).reverse)

/-- Python's substring test `pat in s`, expressed on the character lists of
the two strings: some suffix of `s` starts with `pat`. -/
def strContains (s pat : String) : Bool :=
  (List.range (s.data.length + 1)).any fun i => pat.data.isPrefixOf (s.data.drop i)

/-- Transaction classifier, `categorize` of `src/app.py` (lines 355-380):
lowercase the description, then test the fixed keyword groups in source
order, first match wins, falling through to `"Others"`. -/
def categorize (description : String) : String :=
  let d := strLower description
  if ["swiggy", "zomato", "restaurant", "food", "dining"].any (fun k => strContains d k) then
    "Food & Dining"
  else if ["amazon", "flipkart", "myntra", "ajio", "meesho"].any (fun k => strContains d k) then
    "Shopping"
  else if strContains d "rent" then
    "Rent"
  else if ["petrol", "fuel", "shell", "hpcl", "bpcl", "indianoil"].any (fun k => strContains d k) then
    "Fuel & Transport"
  else if ["recharge", "jio", "airtel", "vi ", "vodafone", "bsnl"].any (fun k => strContains d k) then
    "Mobile & Internet"
  else if ["electricity", "eb", "tneb", "gas bill", "power bill"].any (fun k => strContains d k) then
    "Utilities"
  else if ["salary", "payroll", "salary credit", "sal "].any (fun k => strContains d k) then
    "Salary"
  else if ["emi", "loan", "repayment"].any (fun k => strContains d k) then
    "Loans & EMI"
  else if ["hospital", "pharmacy", "medical", "clinic"].any (fun k => strContains d k) then
    "Health & Medical"
  else if ["school", "college", "fees", "tuition"].any (fun k => strContains d k) then
    "Education"
  else if ["netflix", "hotstar", "prime video", "prime ", "spotify", "wynk"].any (fun k => strContains d k) then
    "Entertainment & Subscriptions"
  else
    "Others"

/-- The ordered keyword groups of the classifier, exactly as the spec lists
them (label, keyword list), in priority order. -/
def keywordGroups : List (String × List String) :=
  [("Food & Dining", ["swiggy", "zomato", "restaurant", "food", "dining"]),
   ("Shopping", ["amazon", "flipkart", "myntra", "ajio", "meesho"]),
   ("Rent", ["rent"]),
   ("Fuel & Transport", ["petrol", "fuel", "shell", "hpcl", "bpcl", "indianoil"]),
   ("Mobile & Internet", ["recharge", "jio", "airtel", "vi ", "vodafone", "bsnl"]),
   ("Utilities", ["electricity", "eb", "tneb", "gas bill", "power bill"]),
   ("Salary", ["salary", "payroll", "salary credit", "sal "]),
   ("Loans & EMI", ["emi", "loan", "repayment"]),
   ("Health & Medical", ["hospital", "pharmacy", "medical", "clinic"]),
   ("Education", ["school", "college", "fees", "tuition"]),
   ("Entertainment & Subscriptions",
    ["netflix", "hotstar", "prime video", "prime ", "spotify", "wynk"])]

/-- First-match-wins lookup through an ordered list of keyword groups,
defaulting to `"Others"`. -/
def firstMatch (d : String) : List (String × List String) → String
  | [] => "Others"
  | g :: gs => if g.2.any (fun k => strContains d k) then g.1 else firstMatch d gs

/-- Classifier as the spec words it: case-insensitive substring matching
against the fixed ordered keyword groups, first matching group wins, else
`"Others"`. Written from the spec for comparison with `categorize`. -/
def categorizeSpec (description : String) : String :=
  firstMatch (strLower description) keywordGroups

/-- The twelve category labels the classifier can produce. -/
def allLabels : List String :=
  ["Food & Dining", "Shopping", "Rent", "Fuel & Transport", "Mobile & Internet",
   "Utilities", "Salary", "Loans & EMI", "Health & Medical", "Education",
   "Entertainment & Subscriptions", "Others"]

/-- A successfully parsed calendar date (result of `pd.to_datetime`).
Pandas timestamps lie between the years 1677 and 2262, so `%Y` always
renders four digits. -/
structure Date where
  year : Nat
  month : Nat
  day : Nat
deriving DecidableEq

/-- Zero-pad a number below 100 to two digits, as `%m` does. -/
def pad2 (n : Nat) : String := if n < 10 then "0" ++ toString n else toString n

/-- Month label `df["Date"].dt.strftime("%Y-%m")` (line 389). -/
def monthLabel (d : Date) : String := toString d.year ++ "-" ++ pad2 d.month

/-- One uploaded row, each cell recorded by the outcome of the coercion the
pipeline applies to it: `amountCell` is the result of
`pd.to_numeric(errors="coerce")` (`none` = NaN), `dateCell` the result of
`pd.to_datetime(errors="coerce")` (`none` = NaT), `descCell` the raw
description cell (`none` = missing/NaN), `typeCell` the type cell rendered
as a string (`astype(str)`). -/
structure RawRow where
  dateCell : Option Date
  descCell : Option String
  amountCell : Option ℚ
  typeCell : String
deriving DecidableEq

/-- The user's column-mapping choices that matter to normalization: whether
a Credit/Debit type column is configured, and the credit / debit token
texts. -/
structure Config where
  useType : Bool
  creditTok : String
  debitTok : String
deriving DecidableEq

/-- A cleaned transaction (one surviving row of `df`). -/
structure Txn where
  date : Date
  description : String
  amount : ℚ
  signedAmount : ℚ
  category : String
deriving DecidableEq

/-- Description column, line 327: `df_raw[desc_col].astype(str).fillna("")`.
Pandas `astype(str)` renders a missing cell (NaN) as the string `"nan"`;
after that the column holds no missing values, so the `.fillna("")` that
follows finds nothing to fill and is a no-op. A missing description
therefore becomes the string `"nan"`. -/
def descOf : Option String → String
  | some s => s
  | none => "nan"

/-- Normalization of a type-column value, line 333:
`astype(str).str.upper().str.strip()`. -/
def normVal (s : String) : String := strTrim (strUpper s)

/-- Normalization of a user-entered credit/debit token, lines 334-335:
`.strip().upper()`. -/
def normTok (s : String) : String := strUpper (strTrim s)

/-- Rows surviving the numeric coercion of the amount column, paired with
their parsed amount — lines 329-330 (`pd.to_numeric` then
`dropna(subset=["Amount"])`). -/
def amountStage (rows : List RawRow) : List (RawRow × ℚ) :=
  rows.filterMap fun r => r.amountCell.map fun a => (r, a)

/-- The branch test `df["Amount"].min() >= 0` of line 337, taken over the
rows surviving the amount coercion. On an empty column pandas `min()` is
NaN and `NaN >= 0` is False, hence the `false` for `[]`. -/
def aminNonneg (rs : List (RawRow × ℚ)) : Bool :=
  match rs with
  | [] => false
  | _ :: _ => rs.all fun p => decide (0 ≤ p.2)

/-- Signed amount of one surviving row, lines 332-344. In the source,
`SignedAmount` is initialized to 0, set to `+Amount` on rows whose
normalized type equals the normalized credit token, and then set to
`-Amount` on rows whose normalized type equals the normalized debit token;
the debit assignment runs last, so it wins when a row matches both tokens —
hence the debit test comes first here. -/
def signedOf (cfg : Config) (allNonneg : Bool) (r : RawRow) (a : ℚ) : ℚ :=
  if cfg.useType then
    if allNonneg then
      if normVal r.typeCell == normTok cfg.debitTok then -a
      else if normVal r.typeCell == normTok cfg.creditTok then a
      else 0
    else a
  else a

/-- Turn one amount-surviving row into a transaction, provided its date
parses — lines 346-347 (`pd.to_datetime` then `dropna(subset=["Date"])`) —
carrying the signed amount computed under the `allNonneg` branch test and
the category of line 382. -/
def finishRow (cfg : Config) (allNonneg : Bool) (p : RawRow × ℚ) : Option Txn :=
  p.1.dateCell.map fun dt =>
    { date := dt
      description := descOf p.1.descCell
      amount := p.2
      signedAmount := signedOf cfg allNonneg p.1 p.2
      category := categorize (descOf p.1.descCell) }

/-- The cleaned transaction table `df` after lines 325-347 and the
categorization of line 382: drop rows with unparseable amounts, compute
signed amounts (the `min() >= 0` test is taken at this point, before the
date filter), then drop rows with unparseable dates. -/
def cleanTxns (cfg : Config) (rows : List RawRow) : List Txn :=
  (amountStage rows).filterMap (finishRow cfg (aminNonneg (amountStage rows)))

/-- Error message of line 350, shown when cleaning leaves no rows. -/
def noValidRowsMsg : String :=
  "No valid rows after cleaning. Check your mappings and try again."

/-- Months having at least one inflow transaction — the group keys of
`df[df["SignedAmount"] > 0].groupby("Month")` (line 391). -/
def inflowMonths (ts : List Txn) : List String :=
  ((ts.filter fun t => decide (0 < t.signedAmount)).map fun t => monthLabel t.date).dedup

/-- Months having at least one outflow transaction — the group keys of
`df[df["SignedAmount"] < 0].groupby("Month")` (lines 392-394). -/
def outflowMonths (ts : List Txn) : List String :=
  ((ts.filter fun t => decide (t.signedAmount < 0)).map fun t => monthLabel t.date).dedup

/-- `all_months = sorted(set(monthly_inflow.index) | set(monthly_outflow.index))`
(line 396): the union of the two month sets, sorted ascending by the
lexicographic (code-point) string order Python's `sorted` uses, i.e. the
lexicographic order on the character lists. -/
def allMonths (ts : List Txn) : List String :=
  List.insertionSort (fun a b : String => a.data ≤ b.data)
    ((inflowMonths ts ++ outflowMonths ts).dedup)

/-- Month's total inflow: the groupby-sum of line 391 reindexed with
`fill_value=0` (line 397) — the sum of the positive signed amounts of the
month, 0 when there are none. -/
def monthInflow (ts : List Txn) (m : String) : ℚ :=
  ((ts.filter fun t => decide (0 < t.signedAmount) && (monthLabel t.date == m)).map
    fun t => t.signedAmount).sum

/-- The signed groupby-sum of the negative rows of a month (inner part of
lines 392-394, before `.abs()`). -/
def monthNegSum (ts : List Txn) (m : String) : ℚ :=
  ((ts.filter fun t => decide (t.signedAmount < 0) && (monthLabel t.date == m)).map
    fun t => t.signedAmount).sum

/-- Month's total outflow, lines 392-394 and 398: absolute value of the
sum of the month's negative signed amounts, 0 for months with none. -/
def monthOutflow (ts : List Txn) (m : String) : ℚ := |monthNegSum ts m|

/-- `monthly_savings = monthly_inflow - monthly_outflow` (line 399). -/
def monthSavings (ts : List Txn) (m : String) : ℚ := monthInflow ts m - monthOutflow ts m

/-- One row of `monthly_df` (lines 401-408). -/
structure MonthlyBucket where
  month : String
  totalInflow : ℚ
  totalOutflow : ℚ
  savings : ℚ
deriving DecidableEq

/-- The monthly table `monthly_df` (lines 401-408): one bucket per month of
`all_months`, in that order. -/
def monthlyDF (ts : List Txn) : List MonthlyBucket :=
  (allMonths ts).map fun m =>
    { month := m
      totalInflow := monthInflow ts m
      totalOutflow := monthOutflow ts m
      savings := monthSavings ts m }

/-- Overall inflow, line 385: sum of the positive signed amounts. -/
def totalInflow (ts : List Txn) : ℚ :=
  ((ts.filter fun t => decide (0 < t.signedAmount)).map fun t => t.signedAmount).sum

/-- Overall (signed, nonpositive) outflow, line 386: sum of the negative
signed amounts. -/
def totalOutflow (ts : List Txn) : ℚ :=
  ((ts.filter fun t => decide (t.signedAmount < 0)).map fun t => t.signedAmount).sum

/-- `savings_total = total_inflow + total_outflow` (line 387). -/
def savingsTotal (ts : List Txn) : ℚ := totalInflow ts + totalOutflow ts

/-- The values of `monthly_series` (line 409): the savings column of
`monthly_df`, in month order. -/
def savingsSeries (ts : List Txn) : List ℚ := (monthlyDF ts).map fun b => b.savings

/-- UPI slice, line 412: rows whose description contains "UPI"
case-insensitively. -/
def upiSlice (ts : List Txn) : List Txn :=
  ts.filter fun t => strContains (strLower t.description) "upi"

/-- EMI slice, lines 413-414: debit rows whose description matches the
case-insensitive regex `EMI|LOAN`, i.e. contains "emi" or "loan". -/
def emiSlice (ts : List Txn) : List Txn :=
  ts.filter fun t =>
    decide (t.signedAmount < 0) &&
      (strContains (strLower t.description) "emi" || strContains (strLower t.description) "loan")

/-- Outcome of the forecast block of the predict tab (lines 622-689):
either the `st.info` path (fewer than 3 months), the `st.warning` path (the
model raised), or a list of labeled forecast points. -/
inductive ForecastResult where
  | insufficient : ForecastResult
  | unavailable : String → ForecastResult
  | forecast : List (String × ℚ) → ForecastResult
deriving DecidableEq

/-- Abstract model of the external `pmdarima` interface (lines 624-634):
`run series n` stands for `auto_arima(series, ...)` followed by
`model.predict(n_periods=n)`; an exception raised by either call is an
`Except.error` carrying its message. When the calls succeed, `predict`
returns exactly `n` values (`run_length`). -/
structure ForecastModel where
  run : List ℚ → Nat → Except String (List ℚ)
  run_length : ∀ s n r, run s n = Except.ok r → r.length = n

/-- The synthetic forecast labels `[f"Month +{i+1}" for i in range(n)]`
(line 645). -/
def futureLabels (n : Nat) : List String :=
  (List.range n).map fun i => "Month +" ++ toString (i + 1)

/-- The forecast block of the predict tab (lines 622-689): forecast only
when the savings series has at least 3 points (`n_future = 3`); any
exception from fitting or predicting becomes a warning, not a crash. -/
def forecastTab (M : ForecastModel) (series : List ℚ) : ForecastResult :=
  if 3 ≤ series.length then
    match M.run series 3 with
    | Except.ok preds => ForecastResult.forecast ((futureLabels 3).zip preds)
    | Except.error e => ForecastResult.unavailable e
  else ForecastResult.insufficient

/-- Everything the pipeline hands to the rendering tabs. -/
structure PipelineOutput where
  txns : List Txn
  monthly : List MonthlyBucket
  upi : List Txn
  emi : List Txn
  forecast : ForecastResult

/-- The whole pipeline run: clean the rows (halting with the fatal
"no valid rows" error of lines 349-352 when nothing survives, before any
downstream stage), then compute the monthly table, the UPI and EMI slices,
and the forecast block outcome. -/
def runPipeline (M : ForecastModel) (cfg : Config) (rows : List RawRow) :
    Except String PipelineOutput :=
  let ts := cleanTxns cfg rows
  if ts.isEmpty then Except.error noValidRowsMsg
  else Except.ok
    { txns := ts
      monthly := monthlyDF ts
      upi := upiSlice ts
      emi := emiSlice ts
      forecast := forecastTab M (savingsSeries ts) }

/-! ### Helper lemmas -/

/-- The source classifier agrees with the ordered-group lookup written from
the spec's wording. -/
theorem categorize_eq_categorizeSpec (d : String) : categorize d = categorizeSpec d := by
  unfold categorize categorizeSpec keywordGroups
  simp only [firstMatch, List.any_cons, List.any_nil, Bool.or_false]

/-- First-match lookup yields the label of one of the groups, or
"Others". -/
theorem firstMatch_mem (d : String) (gs : List (String × List String)) :
    firstMatch d gs ∈ gs.map (fun g => g.1) ++ ["Others"] := by
  induction gs with
  | nil => simp [firstMatch]
  | cons g gs ih =>
    unfold firstMatch
    split
    · simp
    · simp only [List.map_cons, List.cons_append, List.mem_cons]
      exact Or.inr ih

/-- The classifier only produces the twelve fixed labels. -/
theorem categorize_mem_allLabels (d : String) : categorize d ∈ allLabels := by
  rw [categorize_eq_categorizeSpec]
  have h := firstMatch_mem (strLower d) keywordGroups
  simpa [categorizeSpec, keywordGroups, allLabels] using h

/-- Under `useType = false` or under the signed-amounts branch, the signed
amount is the amount itself. -/
theorem signedOf_of_not_nonneg (cfg : Config) (r : RawRow) (a : ℚ) :
    signedOf cfg false r a = a := by
  unfold signedOf
  cases cfg.useType <;> simp

/-- A negative surviving amount makes the `min() >= 0` branch test false. -/
theorem aminNonneg_eq_false {rs : List (RawRow × ℚ)} {p : RawRow × ℚ}
    (hp : p ∈ rs) (hneg : p.2 < 0) : aminNonneg rs = false := by
  cases rs with
  | nil => cases hp
  | cons q qs =>
    unfold aminNonneg
    rw [List.all_eq_false]
    exact ⟨p, hp, by simp [not_le.mpr hneg]⟩

/-- The `min() >= 0` test holds exactly when some row survived the amount
coercion and all surviving amounts are nonnegative. -/
theorem aminNonneg_iff (rs : List (RawRow × ℚ)) :
    aminNonneg rs = true ↔ rs ≠ [] ∧ ∀ p ∈ rs, 0 ≤ p.2 := by
  cases rs with
  | nil => simp [aminNonneg]
  | cons q qs => simp [aminNonneg, List.all_eq_true]

/-- Cleaning keeps exactly the rows whose amount and date both parse,
whatever the sign branch. -/
theorem filterMap_finishRow_length (cfg : Config) (b : Bool) (rows : List RawRow) :
    ((amountStage rows).filterMap (finishRow cfg b)).length
      = (rows.filter fun r => r.amountCell.isSome && r.dateCell.isSome).length := by
  induction rows with
  | nil => rfl
  | cons r rs ih =>
    unfold amountStage at ih ⊢
    cases hA : r.amountCell with
    | none => simpa [List.filterMap_cons, hA] using ih
    | some a =>
      cases hD : r.dateCell with
      | none => simpa [List.filterMap_cons, hA, hD, finishRow] using ih
      | some dt => simpa [List.filterMap_cons, hA, hD, finishRow] using ih

/-! ### Claims -/

/-- C4: for every description string, `categorize` returns exactly one of
the 12 fixed labels (defaulting to "Others"), is deterministic, and agrees
with first-match-wins lookup through the fixed ordered keyword groups (in
the order Food & Dining, Shopping, Rent, Fuel & Transport, Mobile &
Internet, Utilities, Salary, Loans & EMI, Health & Medical, Education,
Entertainment & Subscriptions, else Others); in particular
"amazon rent refund" classifies as Shopping. -/
theorem claim_C4_classifier (d e : String) (hde : d = e) :
    categorize d ∈ allLabels ∧
    categorize d = categorize e ∧
    categorize d = categorizeSpec d ∧
    categorize "amazon rent refund" = "Shopping" :=
  ⟨categorize_mem_allLabels d, hde ▸ rfl, categorize_eq_categorizeSpec d, by decide⟩

/-- Witness for C4 at the concrete description "amazon rent refund". -/
theorem claim_C4_witness :
    categorize "amazon rent refund" ∈ allLabels ∧
    categorize "amazon rent refund" = categorize "amazon rent refund" ∧
    categorize "amazon rent refund" = categorizeSpec "amazon rent refund" ∧
    categorize "amazon rent refund" = "Shopping" :=
  claim_C4_classifier "amazon rent refund" "amazon rent refund" rfl

/-- C9 (divergence): a row whose description cell is missing is retained
with description `"nan"`, not the empty string: `astype(str)` stringifies
the missing value before `.fillna("")` can replace it. -/
theorem claim_C9_missing_description :
    (cleanTxns { useType := false, creditTok := "CR", debitTok := "DR" }
        [{ dateCell := some ⟨2024, 1, 15⟩, descCell := none,
           amountCell := some 10, typeCell := "" }]).map (fun t => t.description)
      = ["nan"] ∧ ("nan" : String) ≠ "" := by
  exact ⟨by decide, by decide⟩

/-- C10: the `min() >= 0` branch test is taken over the rows surviving the
numeric-amount filter, before the date filter; any surviving negative
amount — even on a row whose date fails to parse and is later dropped —
forces `signed_amount = amount` for every retained transaction. -/
theorem claim_C10_min_before_date_filter (cfg : Config) (rows : List RawRow)
    (p : RawRow × ℚ) (hp : p ∈ amountStage rows) (hneg : p.2 < 0) :
    ∀ t ∈ cleanTxns cfg rows, t.signedAmount = t.amount := by
  intro t ht
  unfold cleanTxns at ht
  rw [aminNonneg_eq_false hp hneg] at ht
  rcases List.mem_filterMap.mp ht with ⟨q, hq, hfin⟩
  unfold finishRow at hfin
  rcases Option.map_eq_some'.mp hfin with ⟨dt, hdt, ht⟩
  subst ht
  exact signedOf_of_not_nonneg cfg q.1 q.2

/-- Configuration used by the C10 witness: type column with CR/DR tokens. -/
def exCfgTyped : Config := { useType := true, creditTok := "CR", debitTok := "DR" }

/-- Rows used by the C10 witness: one row with a negative amount and an
unparseable date (it is dropped), one debit-flagged row with a positive
amount and a valid date. -/
def exRowsC10 : List RawRow :=
  [{ dateCell := none, descCell := some "bad date", amountCell := some (-5), typeCell := "CR" },
   { dateCell := some ⟨2024, 2, 1⟩, descCell := some "shop", amountCell := some 7, typeCell := "DR" }]

/-- Witness for C10: the dropped negative-amount row forces the
trust-the-sign branch, so the surviving DR row keeps `+7` (the unsigned
branch would have flipped it to `-7`). -/
theorem claim_C10_witness :
    ((-5 : ℚ) < 0) ∧
    (∀ t ∈ cleanTxns exCfgTyped exRowsC10, t.signedAmount = t.amount) ∧
    (cleanTxns exCfgTyped exRowsC10).map (fun t => t.signedAmount) = [7] := by
  refine ⟨by decide, ?_, by decide⟩
  exact claim_C10_min_before_date_filter exCfgTyped exRowsC10
    ({ dateCell := none, descCell := some "bad date", amountCell := some (-5), typeCell := "CR" }, -5)
    (by decide) (by decide)

/-- C7: every input row whose amount or date fails to parse is dropped (the
cleaned table has exactly one transaction per row with both cells
parseable, hence no more transactions than input rows); if cleaning drops
every row, the run halts with the fatal "no valid rows" error before any
downstream stage, and a successful run implies cleaning kept at least one
row. -/
theorem claim_C7_row_cleaning (M : ForecastModel) (cfg : Config) (rows : List RawRow) :
    (cleanTxns cfg rows).length
        = (rows.filter fun r => r.amountCell.isSome && r.dateCell.isSome).length ∧
    (cleanTxns cfg rows).length ≤ rows.length ∧
    (cleanTxns cfg rows = [] → runPipeline M cfg rows = Except.error noValidRowsMsg) ∧
    (∀ out, runPipeline M cfg rows = Except.ok out → cleanTxns cfg rows ≠ []) := by
  have hlen := filterMap_finishRow_length cfg (aminNonneg (amountStage rows)) rows
  refine ⟨hlen, ?_, ?_, ?_⟩
  · rw [cleanTxns] at *
    exact hlen ▸ List.length_filter_le _ rows
  · intro hnil
    unfold runPipeline
    simp [hnil]
  · intro out hout hnil
    unfold runPipeline at hout
    simp [hnil] at hout

/-- Rows used by the C7 witness: a parseable row, a bad-amount row and a
bad-date row. -/
def exRowsC7 : List RawRow :=
  [{ dateCell := some ⟨2024, 3, 2⟩, descCell := some "ok", amountCell := some 4, typeCell := "" },
   { dateCell := some ⟨2024, 3, 3⟩, descCell := some "bad amount", amountCell := none, typeCell := "" },
   { dateCell := none, descCell := some "bad date", amountCell := some 1, typeCell := "" }]

/-- A trivial always-succeeding forecasting model: predicts `n` zeros. -/
def constModel : ForecastModel where
  run := fun _ n => Except.ok (List.replicate n 0)
  run_length := by
    intro s n r h
    injection h with h
    subst h
    simp

/-- Witness for C7: on the example rows exactly one transaction survives,
and on rows that clean to nothing the pipeline halts with the fatal
error. -/
theorem claim_C7_witness :
    (cleanTxns exCfgTyped exRowsC7).length = 1 ∧
    (cleanTxns exCfgTyped exRowsC7).length ≤ exRowsC7.length ∧
    runPipeline constModel exCfgTyped
        [{ dateCell := none, descCell := none, amountCell := none, typeCell := "" }]
      = Except.error noValidRowsMsg := by
  refine ⟨by decide, (claim_C7_row_cleaning constModel exCfgTyped exRowsC7).2.1, ?_⟩
  exact (claim_C7_row_cleaning constModel exCfgTyped
    [{ dateCell := none, descCell := none, amountCell := none, typeCell := "" }]).2.2.1 (by decide)

/-- Configuration whose credit and debit tokens normalize to the same
string. -/
def collideCfg : Config := { useType := true, creditTok := "X", debitTok := "x" }

/-- A row whose normalized type value equals both normalized tokens of
`collideCfg`. -/
def collideRow : RawRow :=
  { dateCell := some ⟨2024, 1, 1⟩, descCell := some "d", amountCell := some 5, typeCell := "X" }

/-- C1 counterexample: with a type column configured, all amounts
nonnegative, and a row whose normalized type value equals the normalized
credit token, the claim demands `signed_amount = +amount = 5`; the code
gives `-5`, because the row's type also equals the normalized debit token
and the debit assignment runs last. -/
theorem claim_C1_counterexample :
    collideCfg.useType = true ∧
    normVal collideRow.typeCell = normTok collideCfg.creditTok ∧
    aminNonneg (amountStage [collideRow]) = true ∧
    (cleanTxns collideCfg [collideRow]).map (fun t => t.signedAmount) = [-5] ∧
    ¬ (cleanTxns collideCfg [collideRow]).map (fun t => t.signedAmount) = [5] := by
  refine ⟨by decide, by decide, by decide, by decide, by decide⟩

/-- C1 (amended): for every retained transaction, the signed amount is
`signedOf` applied to its surviving row under the `min() >= 0` test; that
test holds exactly when some row survives the amount coercion and all
surviving amounts are nonnegative; and `signedOf` is: the amount itself
when no type column is configured or some amount is negative, and in the
unsigned branch `-amount` on a debit-token match (the debit assignment
runs last, so it wins when the row matches both tokens), `+amount` on a
credit-token match that is not a debit match, and `0` on no match. -/
theorem claim_C1_sign_inference (cfg : Config) (rows : List RawRow) :
    (∀ t ∈ cleanTxns cfg rows, ∃ p ∈ amountStage rows,
        t.amount = p.2 ∧ t.signedAmount = signedOf cfg (aminNonneg (amountStage rows)) p.1 p.2) ∧
    (aminNonneg (amountStage rows) = true ↔
        amountStage rows ≠ [] ∧ ∀ p ∈ amountStage rows, 0 ≤ p.2) ∧
    (∀ (b : Bool) (r : RawRow) (a : ℚ),
      (cfg.useType = false → signedOf cfg b r a = a) ∧
      (cfg.useType = true → b = false → signedOf cfg b r a = a) ∧
      (cfg.useType = true → b = true → normVal r.typeCell = normTok cfg.debitTok →
          signedOf cfg b r a = -a) ∧
      (cfg.useType = true → b = true → normVal r.typeCell ≠ normTok cfg.debitTok →
          normVal r.typeCell = normTok cfg.creditTok → signedOf cfg b r a = a) ∧
      (cfg.useType = true → b = true → normVal r.typeCell ≠ normTok cfg.debitTok →
          normVal r.typeCell ≠ normTok cfg.creditTok → signedOf cfg b r a = 0)) := by
  refine ⟨?_, aminNonneg_iff (amountStage rows), ?_⟩
  · intro t ht
    rcases List.mem_filterMap.mp ht with ⟨q, hq, hfin⟩
    unfold finishRow at hfin
    rcases Option.map_eq_some'.mp hfin with ⟨dt, hdt, ht⟩
    subst ht
    exact ⟨q, hq, rfl, rfl⟩
  · intro b r a
    refine ⟨fun hu => ?_, fun hu hb => ?_, fun hu hb hd => ?_, fun hu hb hd hc => ?_,
      fun hu hb hd hc => ?_⟩
    · simp [signedOf, hu]
    · subst hb
      exact signedOf_of_not_nonneg cfg r a
    · subst hb
      simp [signedOf, hu, hd]
    · subst hb
      have h1 : (normVal r.typeCell == normTok cfg.debitTok) = false := by simp [hd]
      have h2 : (normVal r.typeCell == normTok cfg.creditTok) = true := by simp [hc]
      simp [signedOf, hu, h1, h2]
    · subst hb
      simp [signedOf, hu, hd, hc]

/-- The credit row of the C1 witness. -/
def crRowC1 : RawRow :=
  { dateCell := some ⟨2024, 1, 2⟩, descCell := some "salary credit", amountCell := some 100,
    typeCell := " cr " }

/-- Rows used by the C1 witness: an unsigned statement with a credit row, a
debit row and an unmatched row. -/
def exRowsC1 : List RawRow :=
  [crRowC1,
   { dateCell := some ⟨2024, 1, 3⟩, descCell := some "shop", amountCell := some 40,
     typeCell := "DR" },
   { dateCell := some ⟨2024, 1, 4⟩, descCell := some "odd", amountCell := some 7,
     typeCell := "??" }]

/-- Witness for C1 on a concrete unsigned statement: the credit row gets
`+100`, the debit row `-40`, the unmatched row `0`. -/
theorem claim_C1_witness :
    (aminNonneg (amountStage exRowsC1) = true ↔
        amountStage exRowsC1 ≠ [] ∧ ∀ p ∈ amountStage exRowsC1, 0 ≤ p.2) ∧
    signedOf exCfgTyped true crRowC1 100 = 100 ∧
    (cleanTxns exCfgTyped exRowsC1).map (fun t => t.signedAmount) = [100, -40, 0] := by
  refine ⟨(claim_C1_sign_inference exCfgTyped exRowsC1).2.1, ?_, by decide⟩
  exact ((claim_C1_sign_inference exCfgTyped exRowsC1).2.2 true
    crRowC1 100).2.2.2.1 rfl rfl (by decide) (by decide)

/-- Transactions with signed amount zero do not change a month's inflow. -/
theorem monthInflow_filter_nonzero (ts : List Txn) (m : String) :
    monthInflow ts m
      = monthInflow (ts.filter fun t => !(t.signedAmount == 0)) m := by
  unfold monthInflow
  rw [List.filter_filter]
  have hf : ∀ t ∈ ts,
      ((decide (0 < t.signedAmount) && (monthLabel t.date == m)) && !(t.signedAmount == 0))
        = (decide (0 < t.signedAmount) && (monthLabel t.date == m)) := by
    intro t ht
    by_cases h : t.signedAmount = 0
    · simp [h]
    · simp [h]
  rw [List.filter_congr hf]

/-- Transactions with signed amount zero do not change a month's
outflow. -/
theorem monthOutflow_filter_nonzero (ts : List Txn) (m : String) :
    monthOutflow ts m
      = monthOutflow (ts.filter fun t => !(t.signedAmount == 0)) m := by
  unfold monthOutflow monthNegSum
  rw [List.filter_filter]
  have hf : ∀ t ∈ ts,
      ((decide (t.signedAmount < 0) && (monthLabel t.date == m)) && !(t.signedAmount == 0))
        = (decide (t.signedAmount < 0) && (monthLabel t.date == m)) := by
    intro t ht
    by_cases h : t.signedAmount = 0
    · simp [h]
    · simp [h]
  rw [List.filter_congr hf]

/-- The transaction `finishRow` builds from a row whose date parsed to
`d`. -/
def mkTxn (cfg : Config) (b : Bool) (r : RawRow) (a : ℚ) (d : Date) : Txn :=
  { date := d
    description := descOf r.descCell
    amount := a
    signedAmount := signedOf cfg b r a
    category := categorize (descOf r.descCell) }

/-- On a row whose date cell parsed, `finishRow` yields exactly `mkTxn`. -/
theorem finishRow_eq_some {r : RawRow} {d : Date} (cfg : Config) (b : Bool) (a : ℚ)
    (hd : r.dateCell = some d) :
    finishRow cfg b (r, a) = some (mkTxn cfg b r a d) := by
  unfold finishRow mkTxn
  rw [hd]
  rfl

/-- C8: in the unsigned-amount branch, a row whose normalized type matches
neither token is retained with signed amount exactly 0, and monthly inflow
and outflow aggregates are unchanged when all zero-signed transactions are
removed — such rows contribute to neither. -/
theorem claim_C8_unmatched_token (cfg : Config) (rows : List RawRow)
    (r : RawRow) (a : ℚ) (d : Date)
    (hr : r ∈ rows) (hu : cfg.useType = true) (ha : r.amountCell = some a)
    (hd : r.dateCell = some d)
    (hmin : aminNonneg (amountStage rows) = true)
    (hcr : normVal r.typeCell ≠ normTok cfg.creditTok)
    (hdb : normVal r.typeCell ≠ normTok cfg.debitTok) :
    (∃ t ∈ cleanTxns cfg rows, t.date = d ∧ t.amount = a ∧ t.signedAmount = 0) ∧
    (∀ m, monthInflow (cleanTxns cfg rows) m
        = monthInflow ((cleanTxns cfg rows).filter fun t => !(t.signedAmount == 0)) m ∧
      monthOutflow (cleanTxns cfg rows) m
        = monthOutflow ((cleanTxns cfg rows).filter fun t => !(t.signedAmount == 0)) m) := by
  constructor
  · have hmem : (r, a) ∈ amountStage rows := by
      unfold amountStage
      exact List.mem_filterMap.mpr ⟨r, hr, by rw [ha]; rfl⟩
    refine ⟨mkTxn cfg (aminNonneg (amountStage rows)) r a d, ?_, rfl, rfl, ?_⟩
    · unfold cleanTxns
      exact List.mem_filterMap.mpr
        ⟨(r, a), hmem, finishRow_eq_some cfg (aminNonneg (amountStage rows)) a hd⟩
    · simp [mkTxn, signedOf, hu, hmin, hdb, hcr]
  · exact fun m => ⟨monthInflow_filter_nonzero _ m, monthOutflow_filter_nonzero _ m⟩

/-- The unmatched-token row of the C8 witness. -/
def oddRowC8 : RawRow :=
  { dateCell := some ⟨2024, 5, 9⟩, descCell := some "odd", amountCell := some 7,
    typeCell := "ZZ" }

/-- Rows used by the C8 witness: one credit row and one row whose type
token matches neither CR nor DR. -/
def exRowsC8 : List RawRow :=
  [{ dateCell := some ⟨2024, 5, 1⟩, descCell := some "pay", amountCell := some 50,
     typeCell := "CR" },
   oddRowC8]

unseal Rat.add in
/-- Witness for C8: the unmatched "ZZ" row survives with signed amount 0
and the May aggregates ignore it. -/
theorem claim_C8_witness :
    (∃ t ∈ cleanTxns exCfgTyped exRowsC8, t.date = ⟨2024, 5, 9⟩ ∧ t.amount = 7 ∧
        t.signedAmount = 0) ∧
    monthInflow (cleanTxns exCfgTyped exRowsC8) "2024-05" = 50 ∧
    monthOutflow (cleanTxns exCfgTyped exRowsC8) "2024-05" = 0 := by
  refine ⟨?_, by decide, by decide⟩
  exact (claim_C8_unmatched_token exCfgTyped exRowsC8
    oddRowC8 7 ⟨2024, 5, 9⟩ (by decide) rfl rfl rfl (by decide) (by decide)
    (by decide)).1

/-! ### Monthly aggregation lemmas -/

/-- Pointwise sums distribute over list sums. -/
theorem sum_map_add {α : Type} (l : List α) (f g : α → ℚ) :
    (l.map fun x => f x + g x).sum = (l.map f).sum + (l.map g).sum := by
  induction l with
  | nil => simp
  | cons x l ih =>
    simp only [List.map_cons, List.sum_cons, ih]
    ring

/-- Pointwise differences distribute over list sums. -/
theorem sum_map_sub {α : Type} (l : List α) (f g : α → ℚ) :
    (l.map fun x => f x - g x).sum = (l.map f).sum - (l.map g).sum := by
  induction l with
  | nil => simp
  | cons x l ih =>
    simp only [List.map_cons, List.sum_cons, ih]
    ring

/-- Negation distributes over list sums. -/
theorem sum_map_neg {α : Type} (l : List α) (f : α → ℚ) :
    (l.map fun x => -(f x)).sum = -((l.map f).sum) := by
  induction l with
  | nil => simp
  | cons x l ih =>
    simp only [List.map_cons, List.sum_cons, ih]
    ring

/-- A list of nonpositive rationals has nonpositive sum. -/
theorem sum_nonpos_list (l : List ℚ) (h : ∀ x ∈ l, x ≤ 0) : l.sum ≤ 0 := by
  induction l with
  | nil => simp
  | cons x l ih =>
    have hx := h x (List.mem_cons_self x l)
    have hl := ih fun y hy => h y (List.mem_cons_of_mem x hy)
    simp only [List.sum_cons]
    linarith

/-- Summing an indicator over a duplicate-free list containing the key
picks out the value. -/
theorem sum_ite_key (ms : List String) (k : String) (c : ℚ)
    (hnd : ms.Nodup) (hk : k ∈ ms) :
    (ms.map fun m => if k = m then c else 0).sum = c := by
  induction ms with
  | nil => cases hk
  | cons m ms ih =>
    rcases List.nodup_cons.mp hnd with ⟨hm, hnd2⟩
    simp only [List.map_cons, List.sum_cons]
    rcases List.mem_cons.mp hk with h | h
    · subst h
      have hz : (ms.map fun x => if k = x then c else 0).sum = 0 := by
        apply List.sum_eq_zero
        intro y hy
        rcases List.mem_map.mp hy with ⟨m2, hm2, rfl⟩
        have hne : k ≠ m2 := fun he => hm (he ▸ hm2)
        simp [hne]
      simp [hz]
    · have hkm : k ≠ m := fun he => hm (he ▸ h)
      simp [hkm, ih hnd2 h]

/-- Partition of a filtered sum over a duplicate-free list of months
covering every selected transaction: summing the per-month groupby sums
recovers the total. -/
theorem sum_months_partition (p : Txn → Bool) (ts : List Txn) (ms : List String)
    (hnd : ms.Nodup) (hcov : ∀ t ∈ ts, p t = true → monthLabel t.date ∈ ms) :
    (ms.map fun m =>
        ((ts.filter fun t => p t && (monthLabel t.date == m)).map
          fun t => t.signedAmount).sum).sum
      = ((ts.filter p).map fun t => t.signedAmount).sum := by
  induction ts with
  | nil => simp
  | cons t ts ih =>
    have hcov2 : ∀ u ∈ ts, p u = true → monthLabel u.date ∈ ms := fun u hu hp =>
      hcov u (List.mem_cons_of_mem t hu) hp
    have hstep : ∀ m ∈ ms,
        (((t :: ts).filter fun u => p u && (monthLabel u.date == m)).map
            fun u => u.signedAmount).sum
          = (if (p t && (monthLabel t.date == m)) = true then t.signedAmount else 0)
            + ((ts.filter fun u => p u && (monthLabel u.date == m)).map
                fun u => u.signedAmount).sum := by
      intro m hm
      rw [List.filter_cons]
      split
      · simp
      · simp
    rw [List.map_congr_left hstep, sum_map_add, ih hcov2, List.filter_cons]
    by_cases hp : p t = true
    · have hconv : ∀ m ∈ ms,
          (if (p t && (monthLabel t.date == m)) = true then t.signedAmount else 0)
            = (if monthLabel t.date = m then t.signedAmount else 0) := by
        intro m hm
        simp [hp]
      rw [List.map_congr_left hconv,
        sum_ite_key ms (monthLabel t.date) t.signedAmount hnd
          (hcov t (List.mem_cons_self t ts) hp)]
      simp [hp]
    · have hp2 : p t = false := by
        cases h : p t
        · rfl
        · exact absurd h hp
      have hz : (ms.map fun m =>
          if (p t && (monthLabel t.date == m)) = true then t.signedAmount else 0).sum
            = 0 := by
        apply List.sum_eq_zero
        intro y hy
        rcases List.mem_map.mp hy with ⟨m, hm, rfl⟩
        simp [hp2]
      rw [hz]
      simp [hp2]

/-- The month column of `monthly_df` is exactly `all_months`. -/
theorem monthlyDF_map_month (ts : List Txn) :
    (monthlyDF ts).map (fun b => b.month) = allMonths ts := by
  unfold monthlyDF
  rw [List.map_map]
  show (allMonths ts).map (fun m => m) = allMonths ts
  exact List.map_id' (allMonths ts)

/-- Membership in the sorted month union, characterized by the
transactions. -/
theorem mem_allMonths {ts : List Txn} {m : String} :
    m ∈ allMonths ts ↔
      (∃ t ∈ ts, 0 < t.signedAmount ∧ monthLabel t.date = m) ∨
      (∃ t ∈ ts, t.signedAmount < 0 ∧ monthLabel t.date = m) := by
  unfold allMonths inflowMonths outflowMonths
  rw [List.mem_insertionSort]
  simp only [List.mem_dedup, List.mem_append, List.mem_map, List.mem_filter,
    decide_eq_true_eq]
  constructor
  · rintro (⟨t, ⟨ht, hs⟩, hm⟩ | ⟨t, ⟨ht, hs⟩, hm⟩)
    · exact Or.inl ⟨t, ht, hs, hm⟩
    · exact Or.inr ⟨t, ht, hs, hm⟩
  · rintro (⟨t, ht, hs, hm⟩ | ⟨t, ht, hs, hm⟩)
    · exact Or.inl ⟨t, ⟨ht, hs⟩, hm⟩
    · exact Or.inr ⟨t, ⟨ht, hs⟩, hm⟩

/-- The month of a positive transaction appears in `all_months`. -/
theorem mem_allMonths_of_pos {ts : List Txn} {t : Txn} (ht : t ∈ ts)
    (hp : 0 < t.signedAmount) : monthLabel t.date ∈ allMonths ts :=
  mem_allMonths.mpr (Or.inl ⟨t, ht, hp, rfl⟩)

/-- The month of a negative transaction appears in `all_months`. -/
theorem mem_allMonths_of_neg {ts : List Txn} {t : Txn} (ht : t ∈ ts)
    (hp : t.signedAmount < 0) : monthLabel t.date ∈ allMonths ts :=
  mem_allMonths.mpr (Or.inr ⟨t, ht, hp, rfl⟩)

/-- The sorted month union has no duplicates. -/
theorem allMonths_nodup (ts : List Txn) : (allMonths ts).Nodup := by
  unfold allMonths
  exact ((List.perm_insertionSort _ _).nodup_iff).mpr (List.nodup_dedup _)

/-- The month union is sorted ascending in the lexicographic order on the
character lists. -/
theorem allMonths_sorted (ts : List Txn) :
    (allMonths ts).Sorted (fun a b : String => a.data ≤ b.data) := by
  unfold allMonths
  haveI ht : IsTotal String (fun a b : String => a.data ≤ b.data) :=
    ⟨fun a b => le_total a.data b.data⟩
  haveI hr : IsTrans String (fun a b : String => a.data ≤ b.data) :=
    ⟨fun a b c hab hbc => le_trans hab hbc⟩
  exact List.sorted_insertionSort _ _

/-- A month's signed negative sum is nonpositive. -/
theorem monthNegSum_nonpos (ts : List Txn) (m : String) : monthNegSum ts m ≤ 0 := by
  apply sum_nonpos_list
  intro x hx
  rcases List.mem_map.mp hx with ⟨t, ht, rfl⟩
  rcases Bool.and_eq_true_iff.mp (List.mem_filter.mp ht).2 with ⟨h1, h2⟩
  exact le_of_lt (of_decide_eq_true h1)

/-- A month's outflow is the negation of its signed negative sum. -/
theorem monthOutflow_eq_neg (ts : List Txn) (m : String) :
    monthOutflow ts m = -(monthNegSum ts m) :=
  abs_of_nonpos (monthNegSum_nonpos ts m)

/-- C2: the months of the monthly series are exactly the union of months
with at least one inflow transaction and months with at least one outflow
transaction; a month all of whose transactions are nonpositive still
appears, with total inflow zero (and symmetrically for outflow); and the
series is sorted ascending by lexicographic month label, without
duplicates. -/
theorem claim_C2_month_union (ts : List Txn) :
    (∀ m, (∃ b ∈ monthlyDF ts, b.month = m) ↔
        ((∃ t ∈ ts, 0 < t.signedAmount ∧ monthLabel t.date = m) ∨
         (∃ t ∈ ts, t.signedAmount < 0 ∧ monthLabel t.date = m))) ∧
    (∀ b ∈ monthlyDF ts,
        ((∀ t ∈ ts, monthLabel t.date = b.month → ¬ 0 < t.signedAmount) →
            b.totalInflow = 0) ∧
        ((∀ t ∈ ts, monthLabel t.date = b.month → ¬ t.signedAmount < 0) →
            b.totalOutflow = 0)) ∧
    ((monthlyDF ts).map fun b => b.month).Sorted (fun a b : String => a.data ≤ b.data) ∧
    ((monthlyDF ts).map fun b => b.month).Nodup := by
  refine ⟨?_, ?_, ?_, ?_⟩
  · intro m
    have h1 : (∃ b ∈ monthlyDF ts, b.month = m) ↔ m ∈ allMonths ts := by
      rw [← monthlyDF_map_month]
      constructor
      · rintro ⟨b, hb, rfl⟩
        exact List.mem_map.mpr ⟨b, hb, rfl⟩
      · intro hm
        rcases List.mem_map.mp hm with ⟨b, hb, rfl⟩
        exact ⟨b, hb, rfl⟩
    rw [h1]
    exact mem_allMonths
  · intro b hb
    rcases List.mem_map.mp hb with ⟨m, hm, rfl⟩
    constructor
    · intro hno
      show monthInflow ts m = 0
      unfold monthInflow
      have hfe : (ts.filter fun t => decide (0 < t.signedAmount) && (monthLabel t.date == m))
          = [] := by
        rw [List.filter_eq_nil_iff]
        intro t ht
        by_cases hm2 : monthLabel t.date = m
        · simp [hno t ht hm2]
        · simp [hm2]
      rw [hfe]
      rfl
    · intro hno
      show monthOutflow ts m = 0
      unfold monthOutflow monthNegSum
      have hfe : (ts.filter fun t => decide (t.signedAmount < 0) && (monthLabel t.date == m))
          = [] := by
        rw [List.filter_eq_nil_iff]
        intro t ht
        by_cases hm2 : monthLabel t.date = m
        · simp [hno t ht hm2]
        · simp [hm2]
      rw [hfe]
      rfl
  · rw [monthlyDF_map_month]
    exact allMonths_sorted ts
  · rw [monthlyDF_map_month]
    exact allMonths_nodup ts

/-- A debit-only transaction used by the C2/C3 witnesses. -/
def exTxnA : Txn :=
  { date := ⟨2024, 1, 5⟩, description := "emi payment", amount := 30, signedAmount := -30,
    category := "Loans & EMI" }

/-- A credit-only transaction used by the C2/C3 witnesses. -/
def exTxnB : Txn :=
  { date := ⟨2024, 2, 6⟩, description := "salary", amount := 90, signedAmount := 90,
    category := "Salary" }

/-- Transactions of the C2/C3 witnesses: January has only outflow,
February only inflow. -/
def exTxns : List Txn := [exTxnA, exTxnB]

unseal Rat.add Rat.sub in
/-- Witness for C2: January (outflow-only) appears in the monthly series
with total inflow zero. -/
theorem claim_C2_witness :
    (⟨"2024-01", (0 : ℚ), 30, -30⟩ : MonthlyBucket).totalInflow = 0 :=
  ((claim_C2_month_union exTxns).2.1 ⟨"2024-01", 0, 30, -30⟩ (by decide)).1 (by decide)

/-- C3: every monthly bucket satisfies `savings = total_inflow -
total_outflow`, the savings column sums to the overall signed total (sum
of positive signed amounts plus sum of negative signed amounts), and that
total is the `savings_total` the code computes. -/
theorem claim_C3_reconciliation (ts : List Txn) :
    (∀ b ∈ monthlyDF ts, b.savings = b.totalInflow - b.totalOutflow) ∧
    ((monthlyDF ts).map fun b => b.savings).sum = totalInflow ts + totalOutflow ts ∧
    savingsTotal ts = totalInflow ts + totalOutflow ts := by
  refine ⟨?_, ?_, rfl⟩
  · intro b hb
    rcases List.mem_map.mp hb with ⟨m, hm, rfl⟩
    rfl
  · have hmap : (monthlyDF ts).map (fun b => b.savings)
        = (allMonths ts).map fun m => monthInflow ts m - monthOutflow ts m := by
      unfold monthlyDF monthSavings
      rw [List.map_map]
      rfl
    rw [hmap, sum_map_sub]
    have hin : ((allMonths ts).map fun m => monthInflow ts m).sum = totalInflow ts := by
      unfold monthInflow totalInflow
      exact sum_months_partition (fun t => decide (0 < t.signedAmount)) ts (allMonths ts)
        (allMonths_nodup ts)
        (fun t ht hp => mem_allMonths_of_pos ht (of_decide_eq_true hp))
    have hout : ((allMonths ts).map fun m => monthOutflow ts m).sum
        = -(totalOutflow ts) := by
      have h1 : (allMonths ts).map (fun m => monthOutflow ts m)
          = (allMonths ts).map fun m => -(monthNegSum ts m) :=
        List.map_congr_left fun m hm => monthOutflow_eq_neg ts m
      rw [h1, sum_map_neg]
      congr 1
      unfold monthNegSum totalOutflow
      exact sum_months_partition (fun t => decide (t.signedAmount < 0)) ts (allMonths ts)
        (allMonths_nodup ts)
        (fun t ht hp => mem_allMonths_of_neg ht (of_decide_eq_true hp))
    rw [hin, hout]
    ring

unseal Rat.add Rat.sub in
/-- Witness for C3: on the concrete two-month data the savings column sums
to the overall signed total, which is 60. -/
theorem claim_C3_witness :
    ((monthlyDF exTxns).map fun b => b.savings).sum
        = totalInflow exTxns + totalOutflow exTxns ∧
    totalInflow exTxns + totalOutflow exTxns = 60 :=
  ⟨(claim_C3_reconciliation exTxns).2.1, by decide⟩

/-! ### Forecast claims -/

/-- C5: with fewer than 3 monthly points the forecast is not attempted and
the distinct "insufficient history" state is reported; with at least 3
points and a successful fit, the result is exactly the 3 forecast points
labeled "Month +1", "Month +2", "Month +3". -/
theorem claim_C5_forecast_gating (M : ForecastModel) (series : List ℚ) :
    (series.length < 3 → forecastTab M series = ForecastResult.insufficient) ∧
    (3 ≤ series.length → ∀ preds, M.run series 3 = Except.ok preds →
        forecastTab M series = ForecastResult.forecast ((futureLabels 3).zip preds) ∧
        futureLabels 3 = ["Month +1", "Month +2", "Month +3"] ∧
        ((futureLabels 3).zip preds).length = 3) := by
  constructor
  · intro h
    unfold forecastTab
    rw [if_neg (by omega)]
  · intro h preds hrun
    refine ⟨?_, by decide, ?_⟩
    · unfold forecastTab
      rw [if_pos h, hrun]
    · have hlen := M.run_length series 3 preds hrun
      have hfl : (futureLabels 3).length = 3 := by decide
      rw [List.length_zip, hfl, hlen]
      rfl

/-- Witness for C5: the constant model on a 3-point series yields exactly
the three labeled points, and a 2-point series is insufficient. -/
theorem claim_C5_witness :
    forecastTab constModel [1, 2, 3]
        = ForecastResult.forecast [("Month +1", 0), ("Month +2", 0), ("Month +3", 0)] ∧
    forecastTab constModel [1, 2] = ForecastResult.insufficient := by
  constructor
  · have h := (claim_C5_forecast_gating constModel [1, 2, 3]).2 (by decide) [0, 0, 0] rfl
    exact h.1.trans (by decide)
  · exact (claim_C5_forecast_gating constModel [1, 2]).1 (by decide)

/-- C6: when model fitting or prediction fails on a series long enough to
be attempted, the pipeline surfaces the failure as the non-fatal
"unavailable" state instead of raising; a run with surviving rows always
returns a result; and the cleaned transactions, monthly table, UPI and EMI
slices do not depend on the forecasting model at all. -/
theorem claim_C6_forecast_degradation (M M2 : ForecastModel) (cfg : Config)
    (rows : List RawRow) :
    (∀ e out, 3 ≤ (savingsSeries (cleanTxns cfg rows)).length →
        M.run (savingsSeries (cleanTxns cfg rows)) 3 = Except.error e →
        runPipeline M cfg rows = Except.ok out →
        out.forecast = ForecastResult.unavailable e) ∧
    (cleanTxns cfg rows ≠ [] → ∃ out, runPipeline M cfg rows = Except.ok out) ∧
    (∀ out out2, runPipeline M cfg rows = Except.ok out →
        runPipeline M2 cfg rows = Except.ok out2 →
        out.txns = out2.txns ∧ out.monthly = out2.monthly ∧
        out.upi = out2.upi ∧ out.emi = out2.emi) := by
  refine ⟨?_, ?_, ?_⟩
  · intro e out hlen herr hout
    unfold runPipeline at hout
    by_cases hnil : (cleanTxns cfg rows).isEmpty
    · simp [hnil] at hout
    · simp only [hnil, Bool.false_eq_true, if_false, Except.ok.injEq] at hout
      subst hout
      show forecastTab M (savingsSeries (cleanTxns cfg rows)) = ForecastResult.unavailable e
      unfold forecastTab
      rw [if_pos hlen, herr]
  · intro hne
    unfold runPipeline
    rw [if_neg (by simpa [List.isEmpty_iff] using hne)]
    exact ⟨_, rfl⟩
  · intro out out2 hout hout2
    unfold runPipeline at hout hout2
    by_cases hnil : (cleanTxns cfg rows).isEmpty
    · simp [hnil] at hout
    · simp only [hnil, Bool.false_eq_true, if_false, Except.ok.injEq] at hout hout2
      subst hout
      subst hout2
      exact ⟨rfl, rfl, rfl, rfl⟩

/-- A model whose fitting always raises, standing for `auto_arima` failing
on a degenerate series. -/
def failModel : ForecastModel where
  run := fun _ _ => Except.error "fit failed"
  run_length := by
    intro s n r h
    cases h

/-- Rows used by the C6 witness: three months of data with a constant
savings series. -/
def exRowsC6 : List RawRow :=
  [{ dateCell := some ⟨2024, 1, 2⟩, descCell := some "salary", amountCell := some 100,
     typeCell := "" },
   { dateCell := some ⟨2024, 2, 2⟩, descCell := some "salary", amountCell := some 100,
     typeCell := "" },
   { dateCell := some ⟨2024, 3, 2⟩, descCell := some "salary", amountCell := some 100,
     typeCell := "" }]

/-- Configuration without a type column, used by the C6 witness. -/
def exCfgPlain : Config := { useType := false, creditTok := "CR", debitTok := "DR" }

unseal Rat.add Rat.sub in
/-- Witness for C6: on a 4-point pipeline whose model always raises, the
run still succeeds and reports the forecast as unavailable. -/
theorem claim_C6_witness :
    (∃ out, runPipeline failModel exCfgPlain exRowsC6 = Except.ok out ∧
        out.forecast = ForecastResult.unavailable "fit failed") := by
  obtain ⟨out, hout⟩ :=
    (claim_C6_forecast_degradation failModel failModel exCfgPlain exRowsC6).2.1 (by decide)
  refine ⟨out, hout, ?_⟩
  exact (claim_C6_forecast_degradation failModel failModel exCfgPlain exRowsC6).1
    "fit failed" out (by decide) rfl hout

end CashRaaga
